import Mathlib

/-!
# Verification of the BlockBreaker game core

Shallow embedding of the game-state simulation core of `blockbreaker.cpp`
(class `BlockBreakerGame` and the entity structs `Ball`, `Paddle`, `Block`),
together with proofs and refutations of the specification's claims.

C++ `double` arithmetic is modelled by `ℝ`; `int` counters (`score`, `lives`)
by `ℤ`.  The process-wide `rand()` call consumed by the block-collision
perturbation is modelled by an explicit `ℕ` input to `update` (the code uses
`rand() % 100`, so only the value modulo 100 matters).  Rendering, colors and
GTK plumbing carry no game-state logic and are omitted.
-/

namespace BlockBreaker

noncomputable section

open scoped Classical

/-! ## Game constants (lines 16-28 of the source) -/

def WINDOW_WIDTH : ℝ := 800
def WINDOW_HEIGHT : ℝ := 600
def PADDLE_WIDTH : ℝ := 100
def PADDLE_HEIGHT : ℝ := 20
def BALL_RADIUS : ℝ := 10
def BLOCK_WIDTH : ℝ := 80
def BLOCK_HEIGHT : ℝ := 30
def BLOCK_ROWS : ℕ := 5
def BLOCK_COLS : ℕ := 9
def BLOCK_SPACING : ℝ := 5
def TOP_MARGIN : ℝ := 50
def SIDE_MARGIN : ℝ := 20
def BALL_SPEED : ℝ := 5

/-! ## Entities -/

/-- `struct Ball` (source lines 31-53): center `(x, y)`, velocity `(dx, dy)`,
radius.  The C++ field `radius` is an `int`; it only ever holds
`BALL_RADIUS = 10` and participates in real arithmetic, so it is modelled
as `ℝ`. -/
structure Ball where
  x : ℝ
  y : ℝ
  dx : ℝ
  dy : ℝ
  radius : ℝ

/-- The `Ball` constructor (lines 36-41): initial direction upward at 45°. -/
def Ball.init (startX startY r : ℝ) : Ball :=
  let angle : ℝ := Real.pi / 4
  { x := startX, y := startY, radius := r
    dx := BALL_SPEED * Real.cos angle
    dy := -(BALL_SPEED * Real.sin angle) }

/-- `Ball::move` (lines 43-46). -/
def Ball.move (b : Ball) : Ball :=
  { b with x := b.x + b.dx, y := b.y + b.dy }

/-- `struct Paddle` (lines 55-78): center `(x, y)` plus dimensions (the C++
`width`/`height` are `int`s holding 100 and 20; modelled as `ℝ` since they
only enter real arithmetic, where `width / 2 = 50` and `height / 2 = 10`
agree with the C++ integer divisions). -/
structure Paddle where
  x : ℝ
  y : ℝ
  width : ℝ
  height : ℝ

/-- `Paddle::move` (lines 68-77): clamp the new center into the window. -/
def Paddle.move (p : Paddle) (newX : ℝ) : Paddle :=
  if newX - p.width / 2 < 0 then { p with x := p.width / 2 }
  else if newX + p.width / 2 > WINDOW_WIDTH then { p with x := WINDOW_WIDTH - p.width / 2 }
  else { p with x := newX }

/-- `struct Block` (lines 80-92): top-left corner `(x, y)`, dimensions and an
active flag.  The random display color (fields `r`, `g`, `b`) has no effect
on game state and is omitted. -/
structure Block where
  x : ℝ
  y : ℝ
  width : ℝ
  height : ℝ
  active : Bool

/-! ## Game state -/

/-- Private state of `class BlockBreakerGame` (lines 133-141). -/
structure Game where
  ball : Ball
  paddle : Paddle
  blocks : List Block
  gameRunning : Bool
  gameOver : Bool
  score : ℤ
  lives : ℤ

/-- The block grid built by `resetGame` (lines 156-163): row-major,
`blockX = SIDE_MARGIN + col*(BLOCK_WIDTH + BLOCK_SPACING)`,
`blockY = TOP_MARGIN + row*(BLOCK_HEIGHT + BLOCK_SPACING)`. -/
def initBlocks : List Block :=
  (List.range BLOCK_ROWS).flatMap fun (row : ℕ) =>
    (List.range BLOCK_COLS).map fun (col : ℕ) =>
      { x := SIDE_MARGIN + (col : ℝ) * (BLOCK_WIDTH + BLOCK_SPACING)
        y := TOP_MARGIN + (row : ℝ) * (BLOCK_HEIGHT + BLOCK_SPACING)
        width := BLOCK_WIDTH, height := BLOCK_HEIGHT, active := true }

/-- `BlockBreakerGame::resetGame` (lines 148-167): reinitialize ball, paddle
and blocks and clear both flags.  Note that the source does **not** touch
`score` or `lives` here; they are initialized only in the constructor
(line 144). -/
def resetGame (g : Game) : Game :=
  { g with
    ball := Ball.init (WINDOW_WIDTH / 2) (WINDOW_HEIGHT - 50) BALL_RADIUS
    paddle := { x := WINDOW_WIDTH / 2, y := WINDOW_HEIGHT - 30
                width := PADDLE_WIDTH, height := PADDLE_HEIGHT }
    blocks := initBlocks
    gameRunning := false
    gameOver := false }

/-- The `BlockBreakerGame` constructor (lines 144-146): member-initializes
`gameRunning=false, gameOver=false, score=0, lives=3` and then calls
`resetGame` (which fills in ball, paddle and blocks). -/
def initGame : Game :=
  resetGame
    { ball := Ball.init 0 0 0, paddle := { x := 0, y := 0, width := 0, height := 0 }
      blocks := [], gameRunning := false, gameOver := false, score := 0, lives := 3 }

/-- `BlockBreakerGame::start` (lines 169-171). -/
def start (g : Game) : Game :=
  { g with gameRunning := true }

/-- `BlockBreakerGame::movePaddle` (lines 173-180): move the paddle (clamped);
if the game has not started (`!gameRunning && !gameOver`), drag the ball's
x-coordinate along with the paddle. -/
def movePaddle (g : Game) (x : ℝ) : Game :=
  let p := g.paddle.move x
  let b := if g.gameRunning = false ∧ g.gameOver = false then { g.ball with x := p.x } else g.ball
  { g with paddle := p, ball := b }

/-! ## One tick: `BlockBreakerGame::update` (lines 182-327)

The update is decomposed into the stages of the source, in source order:
motion integration, wall reflection, paddle reflection, block collision,
bottom exit, victory check. -/

/-- Wall reflection (lines 188-195): negate `dx` on side-wall contact, then
negate `dy` on top-wall contact.  No position clamping. -/
def wallStep (b : Ball) : Ball :=
  let b1 := if b.x - b.radius ≤ 0 ∨ b.x + b.radius ≥ WINDOW_WIDTH then { b with dx := -b.dx } else b
  if b1.y - b1.radius ≤ 0 then { b1 with dy := -b1.dy } else b1

/-- The paddle-collision test (lines 198-201): the ball's vertical extent
must overlap the paddle's vertical span, and the ball's **center** x must
lie within the paddle's horizontal span. -/
def paddleHit (b : Ball) (p : Paddle) : Prop :=
  b.y + b.radius ≥ p.y - p.height / 2 ∧
  b.y - b.radius ≤ p.y + p.height / 2 ∧
  b.x ≥ p.x - p.width / 2 ∧
  b.x ≤ p.x + p.width / 2

/-- Paddle reflection (lines 203-213): angle from the hit position, `dy`
preliminarily forced upward, then both components overwritten using the
current speed magnitude. -/
def paddleReflect (b : Ball) (p : Paddle) : Ball :=
  let hitPos := (b.x - p.x) / (p.width / 2)
  let angle := hitPos * (Real.pi / 3)
  let b1 := { b with dy := -|b.dy| }
  let speed := Real.sqrt (b1.dx ^ 2 + b1.dy ^ 2)
  { b1 with dx := speed * Real.sin angle, dy := -(speed * Real.cos angle) }

/-- Closest point of a block's rectangle to the ball center, x-coordinate
(line 224). -/
def closestX (b : Ball) (blk : Block) : ℝ :=
  max blk.x (min b.x (blk.x + blk.width))

/-- Closest point of a block's rectangle to the ball center, y-coordinate
(line 225). -/
def closestY (b : Ball) (blk : Block) : ℝ :=
  max blk.y (min b.y (blk.y + blk.height))

/-- The circle-rectangle collision test (lines 224-233): squared distance
from ball center to the closest point strictly below the squared radius. -/
def circleRectOverlap (b : Ball) (blk : Block) : Prop :=
  (b.x - closestX b blk) ^ 2 + (b.y - closestY b blk) ^ 2 < b.radius ^ 2

/-- The time-of-impact side classification (lines 248-259).  `INFINITY` is
modelled by `⊤ : EReal`.  Sides are encoded as in the source:
0 = top, 1 = right, 2 = bottom, 3 = left. -/
def collisionSideTime (b : Ball) (blk : Block) : ℤ :=
  let t_left : EReal := if b.dx > 0 then ((blk.x - (b.x + b.radius)) / b.dx : ℝ) else ⊤
  let t_right : EReal := if b.dx < 0 then ((blk.x + blk.width - (b.x - b.radius)) / b.dx : ℝ) else ⊤
  let t_top : EReal := if b.dy > 0 then ((blk.y - (b.y + b.radius)) / b.dy : ℝ) else ⊤
  let t_bottom : EReal := if b.dy < 0 then ((blk.y + blk.height - (b.y - b.radius)) / b.dy : ℝ) else ⊤
  let t := min (min t_left t_right) (min t_top t_bottom)
  if t = t_left then 3 else if t = t_right then 1 else if t = t_top then 0 else 2

/-- The nearest-point side classification (lines 263-266). -/
def collisionSideNearest (b : Ball) (blk : Block) : ℤ :=
  if closestX b blk = blk.x then 3
  else if closestX b blk = blk.x + blk.width then 1
  else if closestY b blk = blk.y then 0
  else 2

/-- The side classification actually performed by the source (lines 248-266):
`collisionSide` is first assigned from the time-of-impact computation and
then unconditionally overwritten by the nearest-point computation. -/
def collisionSide (b : Ball) (blk : Block) : ℤ :=
  let _timeBased := collisionSideTime b blk
  collisionSideNearest b blk

/-- The collision response for a hit block (lines 274-292): reflect according
to the hit side, perturb the other component by `(rand() % 100) / 500.0 - 0.1`
(the `rand()` result is the explicit input `k`), then rescale the velocity to
`BALL_SPEED`.  Division follows Lean's `ℝ` convention (`x / 0 = 0`); the
divisor is the post-perturbation speed, which is nonzero in every reachable
state. -/
def resolveBlockHit (k : ℕ) (b : Ball) (blk : Block) : Ball :=
  let side := collisionSide b blk
  let pert : ℝ := ((k % 100 : ℕ) : ℝ) / 500 - 0.1
  let b1 :=
    if side = 0 ∨ side = 2 then { b with dy := -b.dy, dx := b.dx + pert }
    else { b with dx := -b.dx, dy := b.dy + pert }
  let speed := Real.sqrt (b1.dx ^ 2 + b1.dy ^ 2)
  { b1 with dx := b1.dx / speed * BALL_SPEED, dy := b1.dy / speed * BALL_SPEED }

/-- The block loop (lines 216-296): scan blocks in order, skip inactive ones,
resolve the first overlapping block (deactivate it, award 10 points, bounce)
and break.  Returns the resulting ball, the updated block list and the score
delta. -/
def blockLoop (k : ℕ) (b : Ball) : List Block → Ball × List Block × ℤ
  | [] => (b, [], 0)
  | blk :: rest =>
    if blk.active = true ∧ circleRectOverlap b blk then
      (resolveBlockHit k b blk, { blk with active := false } :: rest, 10)
    else
      let r := blockLoop k b rest
      (r.1, blk :: r.2.1, r.2.2)

/-- Ball state after motion integration and wall reflection, within a tick. -/
def afterWalls (g : Game) : Ball :=
  wallStep g.ball.move

/-- Ball state after the paddle-collision stage, within a tick. -/
def afterPaddle (g : Game) : Ball :=
  let b := afterWalls g
  if paddleHit b g.paddle then paddleReflect b g.paddle else b

/-- Result of the block-collision stage, within a tick. -/
def blockPhase (k : ℕ) (g : Game) : Ball × List Block × ℤ :=
  blockLoop k (afterPaddle g) g.blocks

/-- `BlockBreakerGame::update` (lines 182-327), one tick.  `k` models the
`rand()` value consumed if a block collision occurs this tick. -/
def update (k : ℕ) (g : Game) : Game :=
  if g.gameRunning = false ∨ g.gameOver = true then g
  else
    let bb := blockPhase k g
    let b4 := bb.1
    let g1 : Game :=
      if b4.y - b4.radius > WINDOW_HEIGHT then
        if g.lives - 1 ≤ 0 then
          { g with ball := b4, blocks := bb.2.1, score := g.score + bb.2.2
                   lives := g.lives - 1, gameOver := true }
        else
          { g with
            ball := { b4 with x := g.paddle.x, y := WINDOW_HEIGHT - 50
                              dx := BALL_SPEED * Real.cos (Real.pi / 4)
                              dy := -(BALL_SPEED * Real.sin (Real.pi / 4)) }
            blocks := bb.2.1, score := g.score + bb.2.2
            lives := g.lives - 1, gameRunning := false }
      else
        { g with ball := b4, blocks := bb.2.1, score := g.score + bb.2.2 }
    if g1.blocks.all (fun blk => !blk.active) then { g1 with gameOver := true } else g1

/-! ## Reachable states

The externally triggerable operations (source lines 408-437: the GTK event
handlers call `update`, `movePaddle`, `start` and `resetGame`). -/

/-- States reachable from the freshly constructed game by any sequence of
`resetGame`, `movePaddle`, `start` and `update` calls. -/
inductive Reachable : Game → Prop
  | init : Reachable initGame
  | reset {g} : Reachable g → Reachable (resetGame g)
  | paddle {g} (x : ℝ) : Reachable g → Reachable (movePaddle g x)
  | go {g} : Reachable g → Reachable (start g)
  | tick {g} (k : ℕ) : Reachable g → Reachable (update k g)

/-- Velocity magnitude of a ball. -/
def ballSpeed (b : Ball) : ℝ :=
  Real.sqrt (b.dx ^ 2 + b.dy ^ 2)

/-! ## Numeric helper lemmas -/

lemma sqrt_two_gt : (1.414 : ℝ) < Real.sqrt 2 := by
  have h : (1.414 : ℝ) = Real.sqrt (1.414 ^ 2) := (Real.sqrt_sq (by norm_num)).symm
  rw [h]
  exact Real.sqrt_lt_sqrt (by norm_num) (by norm_num)

lemma sqrt_two_lt : Real.sqrt 2 < 1.4143 := by
  have h : (1.4143 : ℝ) = Real.sqrt (1.4143 ^ 2) := (Real.sqrt_sq (by norm_num)).symm
  rw [h]
  exact Real.sqrt_lt_sqrt (by norm_num) (by norm_num)

lemma sq_sum_of_speed (b : Ball) (h : ballSpeed b = BALL_SPEED) :
    b.dx ^ 2 + b.dy ^ 2 = 25 := by
  have h0 : (0 : ℝ) ≤ b.dx ^ 2 + b.dy ^ 2 := by positivity
  calc b.dx ^ 2 + b.dy ^ 2 = Real.sqrt (b.dx ^ 2 + b.dy ^ 2) ^ 2 := (Real.sq_sqrt h0).symm
    _ = BALL_SPEED ^ 2 := by rw [show Real.sqrt (b.dx ^ 2 + b.dy ^ 2) = ballSpeed b from rfl, h]
    _ = 25 := by norm_num [BALL_SPEED]

lemma speed_rescale (a c : ℝ) (h : a ^ 2 + c ^ 2 ≠ 0) :
    Real.sqrt ((a / Real.sqrt (a ^ 2 + c ^ 2) * BALL_SPEED) ^ 2 +
               (c / Real.sqrt (a ^ 2 + c ^ 2) * BALL_SPEED) ^ 2) = BALL_SPEED := by
  have h0 : (0 : ℝ) ≤ a ^ 2 + c ^ 2 := by positivity
  have hpos : (0 : ℝ) < a ^ 2 + c ^ 2 := lt_of_le_of_ne h0 (Ne.symm h)
  have hs : 0 < Real.sqrt (a ^ 2 + c ^ 2) := Real.sqrt_pos.mpr hpos
  have hss : Real.sqrt (a ^ 2 + c ^ 2) ^ 2 = a ^ 2 + c ^ 2 := Real.sq_sqrt h0
  have key : (a / Real.sqrt (a ^ 2 + c ^ 2) * BALL_SPEED) ^ 2 +
      (c / Real.sqrt (a ^ 2 + c ^ 2) * BALL_SPEED) ^ 2 = BALL_SPEED ^ 2 := by
    field_simp
    nlinarith [hss]
  rw [key, Real.sqrt_sq (by norm_num [BALL_SPEED])]

lemma speed_init (sx sy r : ℝ) : ballSpeed (Ball.init sx sy r) = BALL_SPEED := by
  unfold ballSpeed Ball.init
  have hsc := Real.sin_sq_add_cos_sq (Real.pi / 4)
  have key : (BALL_SPEED * Real.cos (Real.pi / 4)) ^ 2 +
      (-(BALL_SPEED * Real.sin (Real.pi / 4))) ^ 2 = BALL_SPEED ^ 2 := by
    have : (BALL_SPEED * Real.cos (Real.pi / 4)) ^ 2 +
        (-(BALL_SPEED * Real.sin (Real.pi / 4))) ^ 2
        = BALL_SPEED ^ 2 * (Real.sin (Real.pi / 4) ^ 2 + Real.cos (Real.pi / 4) ^ 2) := by ring
    rw [this, hsc, mul_one]
  dsimp only
  rw [key, Real.sqrt_sq (by norm_num [BALL_SPEED])]

/-! ## Stage lemmas: positions, radii and speeds through the tick pipeline -/

lemma Ball.move_fields (b : Ball) :
    b.move.x = b.x + b.dx ∧ b.move.y = b.y + b.dy ∧ b.move.dx = b.dx ∧
    b.move.dy = b.dy ∧ b.move.radius = b.radius := by
  simp [Ball.move]

lemma wallStep_fields (b : Ball) :
    (wallStep b).x = b.x ∧ (wallStep b).y = b.y ∧ (wallStep b).radius = b.radius := by
  unfold wallStep
  dsimp only
  split_ifs <;> simp

lemma wallStep_speed (b : Ball) : ballSpeed (wallStep b) = ballSpeed b := by
  unfold wallStep ballSpeed
  dsimp only
  split_ifs <;> simp [neg_sq]

lemma paddleReflect_fields (b : Ball) (p : Paddle) :
    (paddleReflect b p).x = b.x ∧ (paddleReflect b p).y = b.y ∧
    (paddleReflect b p).radius = b.radius := by
  simp [paddleReflect]

lemma paddleReflect_speed (b : Ball) (p : Paddle) :
    ballSpeed (paddleReflect b p) = ballSpeed b := by
  unfold paddleReflect ballSpeed
  dsimp only
  have habs : b.dx ^ 2 + (-|b.dy|) ^ 2 = b.dx ^ 2 + b.dy ^ 2 := by
    rw [neg_sq, sq_abs]
  rw [habs]
  set s := Real.sqrt (b.dx ^ 2 + b.dy ^ 2) with hs
  set θ := (b.x - p.x) / (p.width / 2) * (Real.pi / 3) with hθ
  have key : (s * Real.sin θ) ^ 2 + (-(s * Real.cos θ)) ^ 2 = s ^ 2 := by
    have hsc := Real.sin_sq_add_cos_sq θ
    nlinarith [hsc]
  rw [key, Real.sqrt_sq (Real.sqrt_nonneg _)]

lemma pert_bounds (k : ℕ) :
    -(0.1 : ℝ) ≤ ((k % 100 : ℕ) : ℝ) / 500 - 0.1 ∧ ((k % 100 : ℕ) : ℝ) / 500 - 0.1 < 0.1 := by
  have h1 : (0 : ℝ) ≤ ((k % 100 : ℕ) : ℝ) := Nat.cast_nonneg _
  have h2 : ((k % 100 : ℕ) : ℝ) ≤ 99 := by
    have : k % 100 ≤ 99 := Nat.le_of_lt_succ (Nat.mod_lt _ (by norm_num))
    exact_mod_cast this
  constructor <;> nlinarith

lemma resolveBlockHit_fields (k : ℕ) (b : Ball) (blk : Block) :
    (resolveBlockHit k b blk).x = b.x ∧ (resolveBlockHit k b blk).y = b.y ∧
    (resolveBlockHit k b blk).radius = b.radius := by
  unfold resolveBlockHit
  dsimp only
  split_ifs <;> simp

lemma resolveBlockHit_speed (k : ℕ) (b : Ball) (blk : Block)
    (h : ballSpeed b = BALL_SPEED) :
    ballSpeed (resolveBlockHit k b blk) = BALL_SPEED := by
  have hsq := sq_sum_of_speed b h
  obtain ⟨hp1, hp2⟩ := pert_bounds k
  unfold resolveBlockHit ballSpeed
  dsimp only
  set p : ℝ := ((k % 100 : ℕ) : ℝ) / 500 - 0.1 with hp
  clear_value p
  split_ifs with hside
  · -- top/bottom: dy negated, dx perturbed
    dsimp only
    have hne : (b.dx + p) ^ 2 + (-b.dy) ^ 2 ≠ 0 := by
      intro h0
      have ha : b.dx + p = 0 := by nlinarith [sq_nonneg (b.dx + p), sq_nonneg b.dy]
      have hc : b.dy = 0 := by nlinarith [sq_nonneg (b.dx + p), sq_nonneg b.dy]
      have hdx : b.dx = -p := by linarith
      have h25 : p ^ 2 = 25 := by
        have h' := hsq
        rw [hdx, hc] at h'
        simp [neg_sq] at h'
        linarith
      nlinarith [h25, mul_nonneg (show (0:ℝ) ≤ 0.1 - p by linarith)
        (show (0:ℝ) ≤ p + 0.1 by linarith)]
    exact speed_rescale _ _ hne
  · -- left/right: dx negated, dy perturbed
    dsimp only
    have hne : (-b.dx) ^ 2 + (b.dy + p) ^ 2 ≠ 0 := by
      intro h0
      have ha : b.dx = 0 := by nlinarith [sq_nonneg b.dx, sq_nonneg (b.dy + p)]
      have hc : b.dy + p = 0 := by nlinarith [sq_nonneg b.dx, sq_nonneg (b.dy + p)]
      have hdy : b.dy = -p := by linarith
      have h25 : p ^ 2 = 25 := by
        have h' := hsq
        rw [hdy, ha] at h'
        simp [neg_sq] at h'
        linarith
      nlinarith [h25, mul_nonneg (show (0:ℝ) ≤ 0.1 - p by linarith)
        (show (0:ℝ) ≤ p + 0.1 by linarith)]
    exact speed_rescale _ _ hne

/-! ## Block-loop lemmas -/

/-- Geometric well-formedness of a block, as established by the layout in
`resetGame`: the grid spans x ∈ [20, 780] and y ∈ [50, 220]. -/
def blockGeom (blk : Block) : Prop :=
  SIDE_MARGIN ≤ blk.x ∧ blk.x + blk.width ≤ 780 ∧
  TOP_MARGIN ≤ blk.y ∧ blk.y + blk.height ≤ 220 ∧
  blk.width = BLOCK_WIDTH ∧ blk.height = BLOCK_HEIGHT

lemma blockLoop_ball_cases (k : ℕ) (b : Ball) (l : List Block) :
    (blockLoop k b l).1 = b ∨
    ∃ blk, blk ∈ l ∧ (blockLoop k b l).1 = resolveBlockHit k b blk := by
  induction l with
  | nil => left; rfl
  | cons blk rest ih =>
    by_cases hhit : blk.active = true ∧ circleRectOverlap b blk
    · right
      exact ⟨blk, List.mem_cons_self .., by simp [blockLoop, hhit]⟩
    · rw [blockLoop, if_neg hhit]
      rcases ih with h | ⟨blk', hmem, heq⟩
      · left; exact h
      · right; exact ⟨blk', List.mem_cons_of_mem _ hmem, heq⟩

lemma blockLoop_blocks_cases (k : ℕ) (b : Ball) (l : List Block) :
    ∀ blk' ∈ (blockLoop k b l).2.1,
      blk' ∈ l ∨ ∃ blk ∈ l, blk' = { blk with active := false } := by
  induction l with
  | nil => simp [blockLoop]
  | cons blk rest ih =>
    intro blk' hmem
    by_cases hhit : blk.active = true ∧ circleRectOverlap b blk
    · rw [blockLoop, if_pos hhit] at hmem
      rcases List.mem_cons.mp hmem with h | h
      · right; exact ⟨blk, List.mem_cons_self .., h⟩
      · left; exact List.mem_cons_of_mem _ h
    · rw [blockLoop, if_neg hhit] at hmem
      rcases List.mem_cons.mp hmem with h | h
      · left; simp [h]
      · rcases ih blk' h with h' | ⟨blk'', hmem'', heq''⟩
        · left; exact List.mem_cons_of_mem _ h'
        · right; exact ⟨blk'', List.mem_cons_of_mem _ hmem'', heq''⟩

lemma blockLoop_geom (k : ℕ) (b : Ball) (l : List Block)
    (h : ∀ blk ∈ l, blockGeom blk) :
    ∀ blk' ∈ (blockLoop k b l).2.1, blockGeom blk' := by
  intro blk' hmem
  rcases blockLoop_blocks_cases k b l blk' hmem with h' | ⟨blk, hblk, heq⟩
  · exact h blk' h'
  · have := h blk hblk
    rw [heq]
    exact this

lemma blockLoop_no_hit (k : ℕ) (b : Ball) (l : List Block)
    (h : ∀ blk ∈ l, ¬(blk.active = true ∧ circleRectOverlap b blk)) :
    blockLoop k b l = (b, l, 0) := by
  induction l with
  | nil => rfl
  | cons blk rest ih =>
    rw [blockLoop, if_neg (h blk (List.mem_cons_self ..))]
    rw [ih (fun blk' hm => h blk' (List.mem_cons_of_mem _ hm))]

lemma blockLoop_speed (k : ℕ) (b : Ball) (l : List Block)
    (h : ballSpeed b = BALL_SPEED) :
    ballSpeed (blockLoop k b l).1 = BALL_SPEED := by
  rcases blockLoop_ball_cases k b l with h' | ⟨blk, _, heq⟩
  · rw [h']; exact h
  · rw [heq]; exact resolveBlockHit_speed k b blk h

lemma blockLoop_ball_pos (k : ℕ) (b : Ball) (l : List Block) :
    (blockLoop k b l).1.x = b.x ∧ (blockLoop k b l).1.y = b.y ∧
    (blockLoop k b l).1.radius = b.radius := by
  rcases blockLoop_ball_cases k b l with h' | ⟨blk, _, heq⟩
  · rw [h']; exact ⟨rfl, rfl, rfl⟩
  · rw [heq]; exact resolveBlockHit_fields k b blk

/-! ## No-overlap criteria -/

/-- A ball whose center is at or below y = 230 cannot overlap any block of
the grid (all blocks end at y = 220 and the radius is 10). -/
lemma no_overlap_low (b : Ball) (blk : Block) (hr : b.radius = BALL_RADIUS)
    (hg : blockGeom blk) (hy : 230 ≤ b.y) : ¬circleRectOverlap b blk := by
  obtain ⟨_, _, hgy, hgy2, _, hh⟩ := hg
  intro hov
  unfold circleRectOverlap closestY at hov
  have hmin : min b.y (blk.y + blk.height) = blk.y + blk.height := by
    apply min_eq_right; linarith
  have hmax : max blk.y (min b.y (blk.y + blk.height)) = blk.y + blk.height := by
    rw [hmin]; apply max_eq_right
    rw [hh]; norm_num [BLOCK_HEIGHT]
  rw [hmax, hr] at hov
  norm_num [BALL_RADIUS] at hov
  have hdy : 10 ≤ b.y - (blk.y + blk.height) := by linarith
  nlinarith [sq_nonneg (b.x - closestX b blk), hov, hdy]

/-- A ball whose center is left of x = 0 cannot overlap any block of the
grid (all blocks start at x ≥ 20). -/
lemma no_overlap_left (b : Ball) (blk : Block) (hr : b.radius = BALL_RADIUS)
    (hg : blockGeom blk) (hx : b.x < 0) : ¬circleRectOverlap b blk := by
  obtain ⟨hgx, _, _, _, hw, _⟩ := hg
  intro hov
  unfold circleRectOverlap closestX at hov
  have h20 : (20 : ℝ) ≤ SIDE_MARGIN := by norm_num [SIDE_MARGIN]
  have hcx : max blk.x (min b.x (blk.x + blk.width)) = blk.x := by
    apply max_eq_left
    apply min_le_of_left_le
    have : (0:ℝ) ≤ blk.x := by norm_num [SIDE_MARGIN] at hgx ⊢; linarith
    linarith
  rw [hcx, hr] at hov
  norm_num [BALL_RADIUS] at hov
  have hdx : b.x - blk.x ≤ -20 := by norm_num [SIDE_MARGIN] at hgx; linarith
  nlinarith [sq_nonneg (b.y - closestY b blk), hov, hdx]

/-- A ball whose center is right of x = 800 cannot overlap any block of the
grid (all blocks end at x ≤ 780). -/
lemma no_overlap_right (b : Ball) (blk : Block) (hr : b.radius = BALL_RADIUS)
    (hg : blockGeom blk) (hx : 800 < b.x) : ¬circleRectOverlap b blk := by
  obtain ⟨_, hgx2, _, _, hw, _⟩ := hg
  intro hov
  unfold circleRectOverlap closestX at hov
  have hcx : max blk.x (min b.x (blk.x + blk.width)) = blk.x + blk.width := by
    have hmin : min b.x (blk.x + blk.width) = blk.x + blk.width := by
      apply min_eq_right; linarith
    rw [hmin]; apply max_eq_right
    rw [hw]; norm_num [BLOCK_WIDTH]
  rw [hcx, hr] at hov
  norm_num [BALL_RADIUS] at hov
  have hdx : 20 ≤ b.x - (blk.x + blk.width) := by linarith
  nlinarith [sq_nonneg (b.y - closestY b blk), hov, hdx]

/-! ## Properties of the initial block grid -/

lemma initBlocks_mem_iff (blk : Block) :
    blk ∈ initBlocks ↔ ∃ row : ℕ, row < BLOCK_ROWS ∧ ∃ col : ℕ, col < BLOCK_COLS ∧
      blk = { x := SIDE_MARGIN + (col : ℝ) * (BLOCK_WIDTH + BLOCK_SPACING)
              y := TOP_MARGIN + (row : ℝ) * (BLOCK_HEIGHT + BLOCK_SPACING)
              width := BLOCK_WIDTH, height := BLOCK_HEIGHT, active := true } := by
  unfold initBlocks
  rw [List.mem_flatMap]
  constructor
  · rintro ⟨row, hrow, hblk⟩
    rw [List.mem_map] at hblk
    obtain ⟨col, hcol, h⟩ := hblk
    exact ⟨row, List.mem_range.mp hrow, col, List.mem_range.mp hcol, h.symm⟩
  · rintro ⟨row, hrow, col, hcol, h⟩
    exact ⟨row, List.mem_range.mpr hrow, List.mem_map.mpr ⟨col, List.mem_range.mpr hcol, h.symm⟩⟩

lemma initBlocks_geom : ∀ blk ∈ initBlocks, blockGeom blk := by
  intro blk hmem
  obtain ⟨row, hrow, col, hcol, rfl⟩ := (initBlocks_mem_iff blk).mp hmem
  have hrow' : (row : ℝ) ≤ 4 := by
    have : row ≤ 4 := Nat.le_of_lt_succ hrow
    exact_mod_cast this
  have hcol' : (col : ℝ) ≤ 8 := by
    have : col ≤ 8 := Nat.le_of_lt_succ hcol
    exact_mod_cast this
  have hrow0 : (0:ℝ) ≤ (row : ℝ) := Nat.cast_nonneg _
  have hcol0 : (0:ℝ) ≤ (col : ℝ) := Nat.cast_nonneg _
  refine ⟨?_, ?_, ?_, ?_, rfl, rfl⟩ <;>
    · simp only [SIDE_MARGIN, TOP_MARGIN, BLOCK_WIDTH, BLOCK_HEIGHT, BLOCK_SPACING]
      nlinarith

lemma initBlocks_all_active : ∀ blk ∈ initBlocks, blk.active = true := by
  intro blk hmem
  obtain ⟨_, _, _, _, rfl⟩ := (initBlocks_mem_iff blk).mp hmem
  rfl

lemma initBlocks_first_mem :
    ({ x := SIDE_MARGIN + (0 : ℝ) * (BLOCK_WIDTH + BLOCK_SPACING)
       y := TOP_MARGIN + (0 : ℝ) * (BLOCK_HEIGHT + BLOCK_SPACING)
       width := BLOCK_WIDTH, height := BLOCK_HEIGHT, active := true } : Block) ∈ initBlocks := by
  rw [initBlocks_mem_iff]
  exact ⟨0, by norm_num [BLOCK_ROWS], 0, by norm_num [BLOCK_COLS], by norm_num⟩

lemma initBlocks_not_all_inactive :
    initBlocks.all (fun blk => !blk.active) = false := by
  rcases h : initBlocks.all (fun blk => !blk.active) with _ | _
  · rfl
  · exfalso
    have := List.all_eq_true.mp h _ initBlocks_first_mem
    simp at this

/-! ## Field lemmas for the tick pipeline -/

lemma move_speed (b : Ball) : ballSpeed b.move = ballSpeed b := rfl

lemma afterWalls_fields (g : Game) :
    (afterWalls g).x = g.ball.x + g.ball.dx ∧ (afterWalls g).y = g.ball.y + g.ball.dy ∧
    (afterWalls g).radius = g.ball.radius := by
  unfold afterWalls
  obtain ⟨h1, h2, h3⟩ := wallStep_fields g.ball.move
  rw [h1, h2, h3]
  simp [Ball.move]

lemma afterWalls_speed (g : Game) : ballSpeed (afterWalls g) = ballSpeed g.ball := by
  unfold afterWalls
  rw [wallStep_speed, move_speed]

lemma afterWalls_dx_flip (g : Game)
    (h : g.ball.move.x - g.ball.move.radius ≤ 0 ∨ g.ball.move.x + g.ball.move.radius ≥ WINDOW_WIDTH) :
    (afterWalls g).dx = -g.ball.dx := by
  unfold afterWalls wallStep
  dsimp only
  rw [if_pos h]
  split_ifs <;> simp [Ball.move]

lemma afterPaddle_fields (g : Game) :
    (afterPaddle g).x = g.ball.x + g.ball.dx ∧ (afterPaddle g).y = g.ball.y + g.ball.dy ∧
    (afterPaddle g).radius = g.ball.radius := by
  unfold afterPaddle
  dsimp only
  split_ifs with h
  · obtain ⟨h1, h2, h3⟩ := paddleReflect_fields (afterWalls g) g.paddle
    obtain ⟨a1, a2, a3⟩ := afterWalls_fields g
    exact ⟨h1.trans a1, h2.trans a2, h3.trans a3⟩
  · exact afterWalls_fields g

lemma afterPaddle_speed (g : Game) : ballSpeed (afterPaddle g) = ballSpeed g.ball := by
  unfold afterPaddle
  dsimp only
  split_ifs with h
  · rw [paddleReflect_speed, afterWalls_speed]
  · exact afterWalls_speed g

lemma afterPaddle_eq_of_not_hit (g : Game) (h : ¬ paddleHit (afterWalls g) g.paddle) :
    afterPaddle g = afterWalls g := by
  unfold afterPaddle
  dsimp only
  rw [if_neg h]

lemma blockPhase_fields (k : ℕ) (g : Game) :
    (blockPhase k g).1.x = g.ball.x + g.ball.dx ∧
    (blockPhase k g).1.y = g.ball.y + g.ball.dy ∧
    (blockPhase k g).1.radius = g.ball.radius := by
  unfold blockPhase
  obtain ⟨h1, h2, h3⟩ := blockLoop_ball_pos k (afterPaddle g) g.blocks
  obtain ⟨a1, a2, a3⟩ := afterPaddle_fields g
  exact ⟨h1.trans a1, h2.trans a2, h3.trans a3⟩

lemma blockPhase_speed (k : ℕ) (g : Game) (h : ballSpeed g.ball = BALL_SPEED) :
    ballSpeed (blockPhase k g).1 = BALL_SPEED := by
  unfold blockPhase
  apply blockLoop_speed
  rw [afterPaddle_speed]
  exact h

lemma blockPhase_geom (k : ℕ) (g : Game) (h : ∀ blk ∈ g.blocks, blockGeom blk) :
    ∀ blk' ∈ (blockPhase k g).2.1, blockGeom blk' := by
  unfold blockPhase
  exact blockLoop_geom _ _ _ h

lemma blockPhase_no_hit (k : ℕ) (g : Game)
    (h : ∀ blk ∈ g.blocks, ¬(blk.active = true ∧ circleRectOverlap (afterPaddle g) blk)) :
    blockPhase k g = (afterPaddle g, g.blocks, 0) := by
  unfold blockPhase
  exact blockLoop_no_hit _ _ _ h

/-! ## The reachability invariant -/

/-- Invariant maintained by every operation, from the fresh game onward:
fixed entity dimensions, constant ball speed, clamped paddle, softly bounded
ball position (the ball can overshoot a wall by at most one velocity step
before the reversed velocity brings it back), and well-formed blocks. -/
structure Inv (g : Game) : Prop where
  radius_eq : g.ball.radius = BALL_RADIUS
  speed_eq : ballSpeed g.ball = BALL_SPEED
  pw : g.paddle.width = PADDLE_WIDTH
  ph : g.paddle.height = PADDLE_HEIGHT
  py : g.paddle.y = WINDOW_HEIGHT - 30
  px_lo : PADDLE_WIDTH / 2 ≤ g.paddle.x
  px_hi : g.paddle.x ≤ WINDOW_WIDTH - PADDLE_WIDTH / 2
  x_lo : 0 ≤ g.ball.x ∨ (g.ball.x < 0 ∧ -g.ball.x ≤ g.ball.dx)
  x_hi : g.ball.x ≤ WINDOW_WIDTH ∨ (WINDOW_WIDTH < g.ball.x ∧ g.ball.dx ≤ WINDOW_WIDTH - g.ball.x)
  y_over : g.gameOver = false → g.ball.y ≤ WINDOW_HEIGHT + BALL_RADIUS
  y_hi : g.ball.y ≤ WINDOW_HEIGHT + BALL_RADIUS + BALL_SPEED
  blocks_geom : ∀ blk ∈ g.blocks, blockGeom blk

lemma inv_resetGame (g : Game) : Inv (resetGame g) := by
  refine ⟨rfl, speed_init _ _ _, rfl, rfl, rfl, ?_, ?_, ?_, ?_, ?_, ?_, ?_⟩
  · show PADDLE_WIDTH / 2 ≤ WINDOW_WIDTH / 2
    norm_num [PADDLE_WIDTH, WINDOW_WIDTH]
  · show WINDOW_WIDTH / 2 ≤ WINDOW_WIDTH - PADDLE_WIDTH / 2
    norm_num [PADDLE_WIDTH, WINDOW_WIDTH]
  · left
    show (0:ℝ) ≤ WINDOW_WIDTH / 2
    norm_num [WINDOW_WIDTH]
  · left
    show WINDOW_WIDTH / 2 ≤ WINDOW_WIDTH
    norm_num [WINDOW_WIDTH]
  · intro _
    show WINDOW_HEIGHT - 50 ≤ WINDOW_HEIGHT + BALL_RADIUS
    norm_num [WINDOW_HEIGHT, BALL_RADIUS]
  · show WINDOW_HEIGHT - 50 ≤ WINDOW_HEIGHT + BALL_RADIUS + BALL_SPEED
    norm_num [WINDOW_HEIGHT, BALL_RADIUS, BALL_SPEED]
  · exact initBlocks_geom

lemma inv_initGame : Inv initGame := inv_resetGame _

lemma inv_start (g : Game) (h : Inv g) : Inv (start g) := by
  obtain ⟨h1, h2, h3, h4, h5, h6, h7, h8, h9, h10, h11, h12⟩ := h
  exact ⟨h1, h2, h3, h4, h5, h6, h7, h8, h9, h10, h11, h12⟩

lemma inv_movePaddle (g : Game) (x : ℝ) (h : Inv g) : Inv (movePaddle g x) := by
  have hpw := h.pw
  have hxclamp : PADDLE_WIDTH / 2 ≤ (g.paddle.move x).x ∧
      (g.paddle.move x).x ≤ WINDOW_WIDTH - PADDLE_WIDTH / 2 := by
    unfold Paddle.move
    split_ifs with h1 h2
    · constructor
      · simp [hpw]
      · simp [hpw]
        norm_num [PADDLE_WIDTH, WINDOW_WIDTH]
    · constructor
      · simp [hpw]
        norm_num [PADDLE_WIDTH, WINDOW_WIDTH]
      · simp [hpw]
    · rw [hpw] at h1 h2
      constructor
      · simp
        linarith
      · simp
        linarith
  have hfields : (g.paddle.move x).width = g.paddle.width ∧
      (g.paddle.move x).height = g.paddle.height ∧ (g.paddle.move x).y = g.paddle.y := by
    unfold Paddle.move
    split_ifs <;> simp
  unfold movePaddle
  dsimp only
  split_ifs with hidle
  · refine ⟨h.radius_eq, ?_, ?_, ?_, ?_, ?_, ?_, ?_, ?_, ?_, ?_, h.blocks_geom⟩
    · show ballSpeed { g.ball with x := (g.paddle.move x).x } = BALL_SPEED
      rw [show ballSpeed { g.ball with x := (g.paddle.move x).x } = ballSpeed g.ball from rfl]
      exact h.speed_eq
    · rw [hfields.1]; exact h.pw
    · rw [hfields.2.1]; exact h.ph
    · rw [hfields.2.2]; exact h.py
    · exact hxclamp.1
    · exact hxclamp.2
    · left
      show (0:ℝ) ≤ (g.paddle.move x).x
      have := hxclamp.1
      norm_num [PADDLE_WIDTH] at this
      linarith
    · left
      show (g.paddle.move x).x ≤ WINDOW_WIDTH
      have := hxclamp.2
      norm_num [PADDLE_WIDTH, WINDOW_WIDTH] at this ⊢
      linarith
    · exact h.y_over
    · exact h.y_hi
  · refine ⟨h.radius_eq, h.speed_eq, ?_, ?_, ?_, ?_, ?_, h.x_lo, h.x_hi, h.y_over, h.y_hi,
      h.blocks_geom⟩
    · rw [hfields.1]; exact h.pw
    · rw [hfields.2.1]; exact h.ph
    · rw [hfields.2.2]; exact h.py
    · exact hxclamp.1
    · exact hxclamp.2

lemma sqrt_cos_sin :
    Real.sqrt ((BALL_SPEED * Real.cos (Real.pi / 4)) ^ 2 +
      (-(BALL_SPEED * Real.sin (Real.pi / 4))) ^ 2) = BALL_SPEED := by
  have := speed_init 0 0 0
  simpa [ballSpeed, Ball.init] using this

lemma speed_reset_ball (b : Ball) (px : ℝ) :
    ballSpeed { b with x := px, y := WINDOW_HEIGHT - 50
                       dx := BALL_SPEED * Real.cos (Real.pi / 4)
                       dy := -(BALL_SPEED * Real.sin (Real.pi / 4)) } = BALL_SPEED := by
  unfold ballSpeed
  exact sqrt_cos_sin

/-- Soft wall bounds are preserved through the collision stages of a tick:
wherever the post-move ball center left the window horizontally, the wall
stage has flipped `dx` back inward, and neither the paddle stage nor the
block stage can fire out there. -/
lemma blockPhase_xbound (k : ℕ) (g : Game) (hInv : Inv g) :
    (0 ≤ (blockPhase k g).1.x ∨
      ((blockPhase k g).1.x < 0 ∧ -(blockPhase k g).1.x ≤ (blockPhase k g).1.dx)) ∧
    ((blockPhase k g).1.x ≤ WINDOW_WIDTH ∨
      (WINDOW_WIDTH < (blockPhase k g).1.x ∧
        (blockPhase k g).1.dx ≤ WINDOW_WIDTH - (blockPhase k g).1.x)) := by
  obtain ⟨hbx, hby, hbr⟩ := blockPhase_fields k g
  by_cases hneg : g.ball.x + g.ball.dx < 0
  · -- overshoot past the left wall
    have hflip : (afterWalls g).dx = -g.ball.dx := by
      apply afterWalls_dx_flip
      left
      show g.ball.x + g.ball.dx - g.ball.radius ≤ 0
      rw [hInv.radius_eq]
      norm_num [BALL_RADIUS]
      linarith
    have hnohit : ¬ paddleHit (afterWalls g) g.paddle := by
      intro hh
      have h3 := hh.2.2.1
      rw [(afterWalls_fields g).1, hInv.pw] at h3
      have hlo := hInv.px_lo
      norm_num [PADDLE_WIDTH] at h3 hlo
      linarith
    have hpe : afterPaddle g = afterWalls g := afterPaddle_eq_of_not_hit g hnohit
    have hnoov : ∀ blk ∈ g.blocks, ¬(blk.active = true ∧ circleRectOverlap (afterPaddle g) blk) := by
      intro blk hm hc
      refine no_overlap_left (afterPaddle g) blk ?_ (hInv.blocks_geom blk hm) ?_ hc.2
      · rw [(afterPaddle_fields g).2.2, hInv.radius_eq]
      · rw [(afterPaddle_fields g).1]; exact hneg
    have hb1 : (blockPhase k g).1 = afterWalls g := by
      rw [blockPhase_no_hit k g hnoov]
      exact hpe
    constructor
    · right
      refine ⟨by rw [hbx]; exact hneg, ?_⟩
      rw [hbx, hb1, hflip]
      rcases hInv.x_lo with h0 | ⟨hxn, hxd⟩
      · linarith
      · linarith
    · left
      rw [hbx]
      norm_num [WINDOW_WIDTH]
      linarith
  · by_cases hbig : WINDOW_WIDTH < g.ball.x + g.ball.dx
    · -- overshoot past the right wall
      have hbig' : (800:ℝ) < g.ball.x + g.ball.dx := by
        norm_num [WINDOW_WIDTH] at hbig; linarith
      have hflip : (afterWalls g).dx = -g.ball.dx := by
        apply afterWalls_dx_flip
        right
        show g.ball.x + g.ball.dx + g.ball.radius ≥ WINDOW_WIDTH
        rw [hInv.radius_eq]
        norm_num [BALL_RADIUS, WINDOW_WIDTH]
        linarith
      have hnohit : ¬ paddleHit (afterWalls g) g.paddle := by
        intro hh
        have h4 := hh.2.2.2
        rw [(afterWalls_fields g).1, hInv.pw] at h4
        have hhi := hInv.px_hi
        norm_num [PADDLE_WIDTH, WINDOW_WIDTH] at h4 hhi
        linarith
      have hpe : afterPaddle g = afterWalls g := afterPaddle_eq_of_not_hit g hnohit
      have hnoov : ∀ blk ∈ g.blocks,
          ¬(blk.active = true ∧ circleRectOverlap (afterPaddle g) blk) := by
        intro blk hm hc
        refine no_overlap_right (afterPaddle g) blk ?_ (hInv.blocks_geom blk hm) ?_ hc.2
        · rw [(afterPaddle_fields g).2.2, hInv.radius_eq]
        · rw [(afterPaddle_fields g).1]; exact hbig'
      have hb1 : (blockPhase k g).1 = afterWalls g := by
        rw [blockPhase_no_hit k g hnoov]
        exact hpe
      constructor
      · left
        rw [hbx]
        linarith
      · right
        refine ⟨by rw [hbx]; exact hbig, ?_⟩
        rw [hbx, hb1, hflip]
        rcases hInv.x_hi with h0 | ⟨hxn, hxd⟩
        · norm_num [WINDOW_WIDTH] at h0 ⊢
          linarith
        · norm_num [WINDOW_WIDTH] at hxn hxd ⊢
          linarith
    · -- ball center still inside [0, W]
      push_neg at hneg hbig
      constructor
      · left; rw [hbx]; exact hneg
      · left; rw [hbx]; exact hbig

lemma inv_update (k : ℕ) (g : Game) (hInv : Inv g) : Inv (update k g) := by
  by_cases hstop : g.gameRunning = false ∨ g.gameOver = true
  · unfold update
    rw [if_pos hstop]
    exact hInv
  · have hover : g.gameOver = false := by
      cases hb : g.gameOver
      · rfl
      · exact absurd (Or.inr hb) hstop
    have hy0 : g.ball.y ≤ WINDOW_HEIGHT + BALL_RADIUS := hInv.y_over hover
    have hsq := sq_sum_of_speed g.ball hInv.speed_eq
    have hdy5 : g.ball.dy ≤ 5 := by nlinarith
    obtain ⟨hbx, hby, hbr⟩ := blockPhase_fields k g
    have hbr' : (blockPhase k g).1.radius = BALL_RADIUS := by rw [hbr, hInv.radius_eq]
    have hbs : ballSpeed (blockPhase k g).1 = BALL_SPEED := blockPhase_speed k g hInv.speed_eq
    have hxb := blockPhase_xbound k g hInv
    have hgeom := blockPhase_geom k g hInv.blocks_geom
    have hy1 : (blockPhase k g).1.y ≤ WINDOW_HEIGHT + BALL_RADIUS + BALL_SPEED := by
      rw [hby]
      norm_num [WINDOW_HEIGHT, BALL_RADIUS, BALL_SPEED] at hy0 ⊢
      linarith
    have hp_lo : (0:ℝ) ≤ g.paddle.x := by
      have := hInv.px_lo
      norm_num [PADDLE_WIDTH] at this
      linarith
    have hp_hi : g.paddle.x ≤ WINDOW_WIDTH := by
      have := hInv.px_hi
      norm_num [PADDLE_WIDTH, WINDOW_WIDTH] at this ⊢
      linarith
    unfold update
    rw [if_neg hstop]
    dsimp only
    by_cases hexit : (blockPhase k g).1.y - (blockPhase k g).1.radius > WINDOW_HEIGHT
    · rw [if_pos hexit]
      by_cases hdead : g.lives - 1 ≤ 0
      · rw [if_pos hdead]
        dsimp only
        by_cases hwin : ((blockPhase k g).2.1.all fun blk => !blk.active) = true
        · rw [if_pos hwin]
          exact { radius_eq := hbr', speed_eq := hbs, pw := hInv.pw, ph := hInv.ph
                  py := hInv.py, px_lo := hInv.px_lo, px_hi := hInv.px_hi
                  x_lo := hxb.1, x_hi := hxb.2
                  y_over := fun h => Bool.noConfusion h, y_hi := hy1
                  blocks_geom := hgeom }
        · rw [if_neg hwin]
          exact { radius_eq := hbr', speed_eq := hbs, pw := hInv.pw, ph := hInv.ph
                  py := hInv.py, px_lo := hInv.px_lo, px_hi := hInv.px_hi
                  x_lo := hxb.1, x_hi := hxb.2
                  y_over := fun h => Bool.noConfusion h, y_hi := hy1
                  blocks_geom := hgeom }
      · rw [if_neg hdead]
        dsimp only
        have hy550a : WINDOW_HEIGHT - 50 ≤ WINDOW_HEIGHT + BALL_RADIUS := by
          norm_num [WINDOW_HEIGHT, BALL_RADIUS]
        have hy550b : WINDOW_HEIGHT - 50 ≤ WINDOW_HEIGHT + BALL_RADIUS + BALL_SPEED := by
          norm_num [WINDOW_HEIGHT, BALL_RADIUS, BALL_SPEED]
        by_cases hwin : ((blockPhase k g).2.1.all fun blk => !blk.active) = true
        · rw [if_pos hwin]
          exact { radius_eq := hbr', speed_eq := speed_reset_ball _ _, pw := hInv.pw
                  ph := hInv.ph, py := hInv.py, px_lo := hInv.px_lo, px_hi := hInv.px_hi
                  x_lo := Or.inl hp_lo, x_hi := Or.inl hp_hi
                  y_over := fun _ => hy550a, y_hi := hy550b
                  blocks_geom := hgeom }
        · rw [if_neg hwin]
          exact { radius_eq := hbr', speed_eq := speed_reset_ball _ _, pw := hInv.pw
                  ph := hInv.ph, py := hInv.py, px_lo := hInv.px_lo, px_hi := hInv.px_hi
                  x_lo := Or.inl hp_lo, x_hi := Or.inl hp_hi
                  y_over := fun _ => hy550a, y_hi := hy550b
                  blocks_geom := hgeom }
    · rw [if_neg hexit]
      dsimp only
      have hy610 : (blockPhase k g).1.y ≤ WINDOW_HEIGHT + BALL_RADIUS := by
        push_neg at hexit
        rw [hbr'] at hexit
        norm_num [WINDOW_HEIGHT, BALL_RADIUS] at hexit ⊢
        linarith
      by_cases hwin : ((blockPhase k g).2.1.all fun blk => !blk.active) = true
      · rw [if_pos hwin]
        exact { radius_eq := hbr', speed_eq := hbs, pw := hInv.pw, ph := hInv.ph
                py := hInv.py, px_lo := hInv.px_lo, px_hi := hInv.px_hi
                x_lo := hxb.1, x_hi := hxb.2
                y_over := fun _ => hy610, y_hi := hy1
                blocks_geom := hgeom }
      · rw [if_neg hwin]
        exact { radius_eq := hbr', speed_eq := hbs, pw := hInv.pw, ph := hInv.ph
                py := hInv.py, px_lo := hInv.px_lo, px_hi := hInv.px_hi
                x_lo := hxb.1, x_hi := hxb.2
                y_over := fun _ => hy610, y_hi := hy1
                blocks_geom := hgeom }

/-- Every reachable state satisfies the invariant. -/
lemma reach_inv (g : Game) (h : Reachable g) : Inv g := by
  induction h with
  | init => exact inv_initGame
  | reset _ _ => exact inv_resetGame _
  | paddle x _ ih => exact inv_movePaddle _ x ih
  | go _ ih => exact inv_start _ ih
  | tick k _ ih => exact inv_update k _ ih

/-! ## Evaluation lemmas for concrete ticks -/

lemma initGame_eq :
    initGame = { ball := Ball.init (WINDOW_WIDTH / 2) (WINDOW_HEIGHT - 50) BALL_RADIUS
                 paddle := { x := WINDOW_WIDTH / 2, y := WINDOW_HEIGHT - 30
                             width := PADDLE_WIDTH, height := PADDLE_HEIGHT }
                 blocks := initBlocks, gameRunning := false, gameOver := false
                 score := 0, lives := 3 } := rfl

lemma update_stopped (k : ℕ) (g : Game) (h : g.gameRunning = false ∨ g.gameOver = true) :
    update k g = g := by
  unfold update
  rw [if_pos h]

/-- A tick in which nothing is touched: no wall, no paddle, no block, no
bottom exit, not all blocks destroyed.  The ball just moves. -/
lemma update_free (k : ℕ) (g : Game)
    (hrun : g.gameRunning = true) (hover : g.gameOver = false)
    (hw1 : ¬(g.ball.move.x - g.ball.move.radius ≤ 0 ∨
             g.ball.move.x + g.ball.move.radius ≥ WINDOW_WIDTH))
    (hw2 : ¬(g.ball.move.y - g.ball.move.radius ≤ 0))
    (hp : ¬ paddleHit g.ball.move g.paddle)
    (hblk : ∀ blk ∈ g.blocks, ¬(blk.active = true ∧ circleRectOverlap g.ball.move blk))
    (hbot : ¬(g.ball.move.y - g.ball.move.radius > WINDOW_HEIGHT))
    (hwin : g.blocks.all (fun blk => !blk.active) = false) :
    update k g = { g with ball := g.ball.move } := by
  have haw : afterWalls g = g.ball.move := by
    unfold afterWalls wallStep
    dsimp only
    rw [if_neg hw1, if_neg hw2]
  have hap : afterPaddle g = g.ball.move := by
    unfold afterPaddle
    dsimp only
    rw [haw, if_neg hp]
  have hbp : blockPhase k g = (g.ball.move, g.blocks, 0) := by
    unfold blockPhase
    rw [hap]
    exact blockLoop_no_hit _ _ _ hblk
  unfold update
  rw [if_neg (by simp [hrun, hover])]
  dsimp only
  rw [hbp]
  dsimp only
  rw [if_neg hbot, if_neg (by simp [hwin])]
  simp

/-- A tick that only grazes the right wall: the ball moves and `dx` is
negated; nothing else fires. -/
lemma update_wallflip (k : ℕ) (g : Game)
    (hrun : g.gameRunning = true) (hover : g.gameOver = false)
    (hw1 : g.ball.move.x - g.ball.move.radius ≤ 0 ∨
           g.ball.move.x + g.ball.move.radius ≥ WINDOW_WIDTH)
    (hw2 : ¬(g.ball.move.y - g.ball.move.radius ≤ 0))
    (hp : ¬ paddleHit { g.ball.move with dx := -g.ball.move.dx } g.paddle)
    (hblk : ∀ blk ∈ g.blocks,
      ¬(blk.active = true ∧ circleRectOverlap { g.ball.move with dx := -g.ball.move.dx } blk))
    (hbot : ¬(g.ball.move.y - g.ball.move.radius > WINDOW_HEIGHT))
    (hwin : g.blocks.all (fun blk => !blk.active) = false) :
    update k g = { g with ball := { g.ball.move with dx := -g.ball.move.dx } } := by
  have haw : afterWalls g = { g.ball.move with dx := -g.ball.move.dx } := by
    unfold afterWalls wallStep
    dsimp only
    rw [if_pos hw1]
    dsimp only
    rw [if_neg hw2]
  have hap : afterPaddle g = { g.ball.move with dx := -g.ball.move.dx } := by
    unfold afterPaddle
    dsimp only
    rw [haw, if_neg hp]
  have hbp : blockPhase k g = ({ g.ball.move with dx := -g.ball.move.dx }, g.blocks, 0) := by
    unfold blockPhase
    rw [hap]
    exact blockLoop_no_hit _ _ _ hblk
  unfold update
  rw [if_neg (by simp [hrun, hover])]
  dsimp only
  rw [hbp]
  dsimp only
  rw [if_neg hbot, if_neg (by simp [hwin])]
  simp

/-- A tick in which the ball exits the bottom with lives to spare: the life
counter drops, the ball is re-seated above the paddle with the initial
velocity, and the game stops running. -/
lemma update_bottom_alive (k : ℕ) (g : Game)
    (hrun : g.gameRunning = true) (hover : g.gameOver = false)
    (hw1 : ¬(g.ball.move.x - g.ball.move.radius ≤ 0 ∨
             g.ball.move.x + g.ball.move.radius ≥ WINDOW_WIDTH))
    (hw2 : ¬(g.ball.move.y - g.ball.move.radius ≤ 0))
    (hp : ¬ paddleHit g.ball.move g.paddle)
    (hblk : ∀ blk ∈ g.blocks, ¬(blk.active = true ∧ circleRectOverlap g.ball.move blk))
    (hbot : g.ball.move.y - g.ball.move.radius > WINDOW_HEIGHT)
    (halive : ¬(g.lives - 1 ≤ 0))
    (hwin : g.blocks.all (fun blk => !blk.active) = false) :
    update k g = { g with
      ball := { g.ball.move with x := g.paddle.x, y := WINDOW_HEIGHT - 50
                                 dx := BALL_SPEED * Real.cos (Real.pi / 4)
                                 dy := -(BALL_SPEED * Real.sin (Real.pi / 4)) }
      lives := g.lives - 1, gameRunning := false } := by
  have haw : afterWalls g = g.ball.move := by
    unfold afterWalls wallStep
    dsimp only
    rw [if_neg hw1, if_neg hw2]
  have hap : afterPaddle g = g.ball.move := by
    unfold afterPaddle
    dsimp only
    rw [haw, if_neg hp]
  have hbp : blockPhase k g = (g.ball.move, g.blocks, 0) := by
    unfold blockPhase
    rw [hap]
    exact blockLoop_no_hit _ _ _ hblk
  unfold update
  rw [if_neg (by simp [hrun, hover])]
  dsimp only
  rw [hbp]
  dsimp only
  rw [if_pos hbot, if_neg halive, if_neg (by simp [hwin])]
  simp

/-! ## A concrete 12-tick trace driving the ball into the right wall

Launched with the paddle (and hence the ball) at x = 750, the ball flies
up-right at 45° and crosses x = 790 on the 12th tick, ending that tick with
its disk protruding past the right wall. -/

/-- The per-tick diagonal displacement `5·cos(π/4) = 5·(√2/2)`. -/
def diag : ℝ := 5 * (Real.sqrt 2 / 2)

lemma diag_bounds : 3.535 ≤ diag ∧ diag ≤ 3.536 := by
  unfold diag
  constructor <;> nlinarith [sqrt_two_gt, sqrt_two_lt]

lemma ball_init_eq (sx sy r : ℝ) :
    Ball.init sx sy r = { x := sx, y := sy, dx := diag, dy := -diag, radius := r } := by
  unfold Ball.init diag
  simp [Real.cos_pi_div_four, Real.sin_pi_div_four, BALL_SPEED]

/-- Ball position after `n` free ticks of the c8 trace. -/
def c8Ball (n : ℕ) : Ball :=
  { x := 750 + (n : ℝ) * diag, y := 550 - (n : ℝ) * diag, dx := diag, dy := -diag, radius := 10 }

/-- Game state after `n` free ticks of the c8 trace. -/
def c8State (n : ℕ) : Game :=
  { ball := c8Ball n
    paddle := { x := 750, y := 570, width := 100, height := 20 }
    blocks := initBlocks, gameRunning := true, gameOver := false, score := 0, lives := 3 }

lemma c8_init : start (movePaddle initGame 750) = c8State 0 := by
  have h1 : ¬((750:ℝ) - PADDLE_WIDTH / 2 < 0) := by norm_num [PADDLE_WIDTH]
  have h2 : ¬((750:ℝ) + PADDLE_WIDTH / 2 > WINDOW_WIDTH) := by
    norm_num [PADDLE_WIDTH, WINDOW_WIDTH]
  rw [initGame_eq]
  unfold movePaddle Paddle.move start
  dsimp only
  rw [if_neg h1, if_neg h2, if_pos ⟨rfl, rfl⟩]
  unfold c8State c8Ball
  rw [ball_init_eq]
  simp only [Game.mk.injEq, Ball.mk.injEq, Paddle.mk.injEq]
  norm_num [WINDOW_HEIGHT, WINDOW_WIDTH, PADDLE_WIDTH, PADDLE_HEIGHT, BALL_RADIUS]

lemma c8_step (n : ℕ) (hn : n ≤ 10) : update 0 (c8State n) = c8State (n + 1) := by
  have hd := diag_bounds
  have hn' : (n : ℝ) ≤ 10 := by exact_mod_cast hn
  have hn0 : (0 : ℝ) ≤ (n : ℝ) := Nat.cast_nonneg _
  have hx : (c8State n).ball.move.x = 750 + ((n : ℝ) + 1) * diag := by
    show 750 + (n : ℝ) * diag + diag = 750 + ((n : ℝ) + 1) * diag
    ring
  have hy : (c8State n).ball.move.y = 550 - ((n : ℝ) + 1) * diag := by
    show 550 - (n : ℝ) * diag + -diag = 550 - ((n : ℝ) + 1) * diag
    ring
  have hr : (c8State n).ball.move.radius = 10 := rfl
  have hxlo : 750 ≤ (c8State n).ball.move.x := by rw [hx]; nlinarith
  have hxhi : (c8State n).ball.move.x < 790 := by rw [hx]; nlinarith
  have hylo : 500 ≤ (c8State n).ball.move.y := by rw [hy]; nlinarith
  have hyhi : (c8State n).ball.move.y < 550 := by rw [hy]; nlinarith
  have hW1 : ¬((c8State n).ball.move.x - (c8State n).ball.move.radius ≤ 0 ∨
      (c8State n).ball.move.x + (c8State n).ball.move.radius ≥ WINDOW_WIDTH) := by
    rw [hr]
    push_neg
    refine ⟨by linarith, ?_⟩
    norm_num [WINDOW_WIDTH]
    linarith
  have hW2 : ¬((c8State n).ball.move.y - (c8State n).ball.move.radius ≤ 0) := by
    rw [hr]; push_neg; linarith
  have hP : ¬ paddleHit (c8State n).ball.move (c8State n).paddle := by
    intro hh
    have h1 := hh.1
    have hpy : (c8State n).paddle.y = 570 := rfl
    have hph : (c8State n).paddle.height = 20 := rfl
    rw [hpy, hph, hr] at h1
    norm_num at h1
    linarith
  have hB : ∀ blk ∈ (c8State n).blocks,
      ¬(blk.active = true ∧ circleRectOverlap (c8State n).ball.move blk) := by
    intro blk hm hc
    refine no_overlap_low _ blk (by rw [hr]; norm_num [BALL_RADIUS])
      (initBlocks_geom blk hm) (by linarith) hc.2
  have hBot : ¬((c8State n).ball.move.y - (c8State n).ball.move.radius > WINDOW_HEIGHT) := by
    rw [hr]
    push_neg
    norm_num [WINDOW_HEIGHT]
    linarith
  rw [update_free 0 (c8State n) rfl rfl hW1 hW2 hP hB hBot initBlocks_not_all_inactive]
  have hball : (c8State n).ball.move = c8Ball (n + 1) := by
    unfold c8State c8Ball Ball.move
    dsimp only
    congr 1 <;> push_cast <;> ring
  rw [hball]
  rfl

lemma c8_last : update 0 (c8State 11) =
    { c8State 11 with ball := { (c8State 11).ball.move with dx := -diag } } := by
  have hd := diag_bounds
  have hx : (c8State 11).ball.move.x = 750 + 12 * diag := by
    show 750 + ((11:ℕ) : ℝ) * diag + diag = 750 + 12 * diag
    push_cast
    ring
  have hy : (c8State 11).ball.move.y = 550 - 12 * diag := by
    show 550 - ((11:ℕ) : ℝ) * diag + -diag = 550 - 12 * diag
    push_cast
    ring
  have hr : (c8State 11).ball.move.radius = 10 := rfl
  have hxlo : 790 ≤ (c8State 11).ball.move.x := by rw [hx]; nlinarith
  have hylo : 500 ≤ (c8State 11).ball.move.y := by rw [hy]; nlinarith
  have hyhi : (c8State 11).ball.move.y < 550 := by rw [hy]; nlinarith
  have hdx : (c8State 11).ball.move.dx = diag := rfl
  have hW1 : (c8State 11).ball.move.x - (c8State 11).ball.move.radius ≤ 0 ∨
      (c8State 11).ball.move.x + (c8State 11).ball.move.radius ≥ WINDOW_WIDTH := by
    right
    rw [hr]
    norm_num [WINDOW_WIDTH]
    linarith
  have hW2 : ¬((c8State 11).ball.move.y - (c8State 11).ball.move.radius ≤ 0) := by
    rw [hr]; push_neg; linarith
  have hP : ¬ paddleHit { (c8State 11).ball.move with dx := -(c8State 11).ball.move.dx }
      (c8State 11).paddle := by
    intro hh
    have h1 := hh.1
    have hpy : (c8State 11).paddle.y = 570 := rfl
    have hph : (c8State 11).paddle.height = 20 := rfl
    have hby : ({ (c8State 11).ball.move with dx := -(c8State 11).ball.move.dx } : Ball).y =
        (c8State 11).ball.move.y := rfl
    have hbr : ({ (c8State 11).ball.move with dx := -(c8State 11).ball.move.dx } : Ball).radius =
        10 := rfl
    rw [hpy, hph, hby, hbr] at h1
    norm_num at h1
    linarith
  have hB : ∀ blk ∈ (c8State 11).blocks,
      ¬(blk.active = true ∧
        circleRectOverlap { (c8State 11).ball.move with dx := -(c8State 11).ball.move.dx } blk) := by
    intro blk hm hc
    refine no_overlap_low _ blk rfl (initBlocks_geom blk hm) ?_ hc.2
    show (230:ℝ) ≤ (c8State 11).ball.move.y
    linarith
  have hBot : ¬((c8State 11).ball.move.y - (c8State 11).ball.move.radius > WINDOW_HEIGHT) := by
    rw [hr]
    push_neg
    norm_num [WINDOW_HEIGHT]
    linarith
  rw [update_wallflip 0 (c8State 11) rfl rfl hW1 hW2 hP hB hBot initBlocks_not_all_inactive]
  rw [hdx]

lemma c8_trace : ∀ n ≤ 11, (update 0)^[n] (c8State 0) = c8State n := by
  intro n hn
  induction n with
  | zero => rfl
  | succ j ih =>
    rw [Function.iterate_succ_apply', ih (by omega)]
    exact c8_step j (by omega)

lemma c8_final :
    (update 0)^[12] (start (movePaddle initGame 750)) =
      { c8State 11 with ball := { (c8State 11).ball.move with dx := -diag } } := by
  rw [c8_init]
  rw [show (12 : ℕ) = 11 + 1 from rfl, Function.iterate_succ_apply', c8_trace 11 le_rfl]
  exact c8_last

lemma c8_reachable (n : ℕ) : Reachable ((update 0)^[n] (start (movePaddle initGame 750))) := by
  induction n with
  | zero => exact Reachable.go (Reachable.paddle 750 Reachable.init)
  | succ j ih =>
    rw [Function.iterate_succ_apply']
    exact Reachable.tick 0 ih

/-! ## Scenario states for the claims -/

/-- The spec's scenario S5 state: running, ball at (400, 590) with velocity
(0, +5), paddle at x = 100, full grid, 3 lives. -/
def c9Start : Game :=
  { ball := { x := 400, y := 590, dx := 0, dy := 5, radius := 10 }
    paddle := { x := 100, y := 570, width := 100, height := 20 }
    blocks := initBlocks, gameRunning := true, gameOver := false, score := 0, lives := 3 }

/-- Scenario S5 with the ball started at y = 610, so that the post-move check
`y - r > H` actually fires on the very next tick. -/
def c9StartA : Game :=
  { ball := { x := 400, y := 610, dx := 0, dy := 5, radius := 10 }
    paddle := { x := 100, y := 570, width := 100, height := 20 }
    blocks := initBlocks, gameRunning := true, gameOver := false, score := 0, lives := 3 }

/-- A running state whose post-move ball at (345, 570) box-overlaps the
paddle at x = 400 without its center entering the paddle's x-span. -/
def c6Start : Game :=
  { ball := { x := 345, y := 565, dx := 0, dy := 5, radius := 10 }
    paddle := { x := 400, y := 570, width := 100, height := 20 }
    blocks := initBlocks, gameRunning := true, gameOver := false, score := 0, lives := 3 }

/-- A finished (game-over) state with a depleted session: all blocks
destroyed, score 450, no lives.  This is the observable state after losing
the last life with every block already cleared, and in particular exactly
the kind of state on which the click handler calls `resetGame`. -/
def brokenState : Game :=
  { ball := { x := 400, y := 550, dx := 0, dy := -5, radius := 10 }
    paddle := { x := 400, y := 570, width := 100, height := 20 }
    blocks := initBlocks.map (fun blk => { blk with active := false })
    gameRunning := false, gameOver := true, score := 450, lives := 0 }

/-- A finished state used to exercise `movePaddle` frame conditions. -/
def c10Start : Game :=
  { ball := { x := 123, y := 456, dx := 3, dy := 4, radius := 10 }
    paddle := { x := 400, y := 570, width := 100, height := 20 }
    blocks := initBlocks, gameRunning := false, gameOver := true, score := 7, lives := 0 }

/-! ## Spec-side definitions (for refinement comparisons) -/

/-- Modelled from the spec's words (C6): the ball's axis-aligned bounding
extent (center ± radius in both axes) overlaps the paddle's bounding
rectangle (paddle center ± half-width and ± half-height). -/
def ballPaddleBoxOverlap (b : Ball) (p : Paddle) : Prop :=
  b.x + b.radius ≥ p.x - p.width / 2 ∧ b.x - b.radius ≤ p.x + p.width / 2 ∧
  b.y + b.radius ≥ p.y - p.height / 2 ∧ b.y - b.radius ≤ p.y + p.height / 2

/-- Modelled from the spec's words (C5): classify the hit side by the
nearest-point method, with left/right priority over top/bottom on corner
ties. -/
def collisionSideSpec (b : Ball) (blk : Block) : ℤ :=
  if closestX b blk = blk.x then 3
  else if closestX b blk = blk.x + blk.width then 1
  else if closestY b blk = blk.y then 0
  else 2

/-- The tick completes without the bottom-exit branch firing ("the ball is
still on field"). -/
def noBottomExit (g : Game) (k : ℕ) : Prop :=
  g.gameRunning = true → g.gameOver = false →
    ¬((blockPhase k g).1.y - (blockPhase k g).1.radius > WINDOW_HEIGHT)

/-! ## Concrete evaluations for the scenario states -/

lemma c9_eval : update 0 c9Start = { c9Start with ball := c9Start.ball.move } := by
  have hmx : c9Start.ball.move.x = 400 := by show (400:ℝ) + 0 = 400; norm_num
  have hmy : c9Start.ball.move.y = 595 := by show (590:ℝ) + 5 = 595; norm_num
  have hmr : c9Start.ball.move.radius = 10 := rfl
  apply update_free 0 c9Start rfl rfl
  · rw [hmx, hmr]
    push_neg
    constructor
    · norm_num
    · norm_num [WINDOW_WIDTH]
  · rw [hmy, hmr]; norm_num
  · intro hh
    have h2 := hh.2.1
    have hpy : c9Start.paddle.y = 570 := rfl
    have hph : c9Start.paddle.height = 20 := rfl
    rw [hpy, hph, hmy, hmr] at h2
    norm_num at h2
  · intro blk hm hc
    exact no_overlap_low _ blk (by rw [hmr]; norm_num [BALL_RADIUS]) (initBlocks_geom blk hm)
      (by rw [hmy]; norm_num) hc.2
  · rw [hmy, hmr]; norm_num [WINDOW_HEIGHT]
  · exact initBlocks_not_all_inactive

lemma c9A_eval : update 0 c9StartA =
    { c9StartA with
      ball := { c9StartA.ball.move with x := c9StartA.paddle.x, y := WINDOW_HEIGHT - 50
                                        dx := BALL_SPEED * Real.cos (Real.pi / 4)
                                        dy := -(BALL_SPEED * Real.sin (Real.pi / 4)) }
      lives := c9StartA.lives - 1, gameRunning := false } := by
  have hmx : c9StartA.ball.move.x = 400 := by show (400:ℝ) + 0 = 400; norm_num
  have hmy : c9StartA.ball.move.y = 615 := by show (610:ℝ) + 5 = 615; norm_num
  have hmr : c9StartA.ball.move.radius = 10 := rfl
  apply update_bottom_alive 0 c9StartA rfl rfl
  · rw [hmx, hmr]
    push_neg
    constructor
    · norm_num
    · norm_num [WINDOW_WIDTH]
  · rw [hmy, hmr]; norm_num
  · intro hh
    have h2 := hh.2.1
    have hpy : c9StartA.paddle.y = 570 := rfl
    have hph : c9StartA.paddle.height = 20 := rfl
    rw [hpy, hph, hmy, hmr] at h2
    norm_num at h2
  · intro blk hm hc
    exact no_overlap_low _ blk (by rw [hmr]; norm_num [BALL_RADIUS]) (initBlocks_geom blk hm)
      (by rw [hmy]; norm_num) hc.2
  · rw [hmy, hmr]; norm_num [WINDOW_HEIGHT]
  · show ¬((3:ℤ) - 1 ≤ 0)
    norm_num
  · exact initBlocks_not_all_inactive

lemma c6_eval : update 0 c6Start = { c6Start with ball := c6Start.ball.move } := by
  have hmx : c6Start.ball.move.x = 345 := by show (345:ℝ) + 0 = 345; norm_num
  have hmy : c6Start.ball.move.y = 570 := by show (565:ℝ) + 5 = 570; norm_num
  have hmr : c6Start.ball.move.radius = 10 := rfl
  apply update_free 0 c6Start rfl rfl
  · rw [hmx, hmr]
    push_neg
    constructor
    · norm_num
    · norm_num [WINDOW_WIDTH]
  · rw [hmy, hmr]; norm_num
  · intro hh
    have h3 := hh.2.2.1
    have hpx : c6Start.paddle.x = 400 := rfl
    have hpw : c6Start.paddle.width = 100 := rfl
    rw [hpx, hpw, hmx] at h3
    norm_num at h3
  · intro blk hm hc
    exact no_overlap_low _ blk (by rw [hmr]; norm_num [BALL_RADIUS]) (initBlocks_geom blk hm)
      (by rw [hmy]; norm_num) hc.2
  · rw [hmy, hmr]; norm_num [WINDOW_HEIGHT]
  · exact initBlocks_not_all_inactive

/-! ## Claim theorems -/

/-- C1: `resetGame` does reinitialize the ball, the paddle, the blocks and
both flags, but — contrary to the claim — it leaves `score` and `lives`
untouched: evaluated on a finished state with score 450 and 0 lives, the
reset state still has score 450 and 0 lives instead of 0 and 3. -/
theorem reset_keeps_score_and_lives :
    (resetGame brokenState).score = 450 ∧ (resetGame brokenState).lives = 0 ∧
    (resetGame brokenState).gameRunning = false ∧ (resetGame brokenState).gameOver = false ∧
    (resetGame brokenState).ball = Ball.init (WINDOW_WIDTH / 2) (WINDOW_HEIGHT - 50) BALL_RADIUS ∧
    (resetGame brokenState).paddle =
      { x := WINDOW_WIDTH / 2, y := WINDOW_HEIGHT - 30
        width := PADDLE_WIDTH, height := PADDLE_HEIGHT } ∧
    (resetGame brokenState).blocks = initBlocks :=
  ⟨rfl, rfl, rfl, rfl, rfl, rfl, rfl⟩

/-- C2: the claimed invariant `over ⇔ (lives = 0 ∨ no block active)` is not
preserved by `resetGame`: on the finished state `brokenState` (where the
invariant holds: over = true, lives = 0, all blocks inactive) the reset
produces `over = false` while `lives` is still 0 — the invariant's
right-to-left direction is violated in the resulting state. -/
theorem reset_breaks_over_invariant :
    brokenState.gameOver = true ∧ brokenState.lives = 0 ∧
    (resetGame brokenState).gameOver = false ∧ (resetGame brokenState).lives = 0 ∧
    ∃ blk ∈ (resetGame brokenState).blocks, blk.active = true := by
  refine ⟨rfl, rfl, rfl, rfl, ?_⟩
  exact ⟨_, initBlocks_first_mem, rfl⟩

/-- C3: the claimed invariant `score = 10 × (count of inactive blocks)` is
not preserved by `resetGame`: resetting the finished state with score 450
restores all 45 blocks to active (0 inactive) while keeping score 450. -/
theorem reset_breaks_score_invariant :
    (resetGame brokenState).score = 450 ∧
    ((resetGame brokenState).blocks.countP fun blk => !blk.active) = 0 ∧
    (resetGame brokenState).score ≠
      10 * ((resetGame brokenState).blocks.countP fun blk => !blk.active) := by
  have hcount : ((resetGame brokenState).blocks.countP fun blk => !blk.active) = 0 := by
    rw [show (resetGame brokenState).blocks = initBlocks from rfl]
    rw [List.countP_eq_zero]
    intro blk hm
    simp [initBlocks_all_active blk hm]
  refine ⟨rfl, hcount, ?_⟩
  rw [hcount, show (resetGame brokenState).score = 450 from rfl]
  norm_num

/-- C4: in every reachable state, a completed tick leaves the velocity
magnitude at exactly `BALL_SPEED = 5` — in particular within `1e-9` of it,
as claimed for ticks that keep the ball on field. -/
theorem tick_speed_invariant (g : Game) (k : ℕ) (hg : Reachable g)
    (hnb : noBottomExit g k) :
    |ballSpeed (update k g).ball - BALL_SPEED| < 1e-9 := by
  have hInv := reach_inv _ (Reachable.tick k hg)
  rw [hInv.speed_eq]
  norm_num

theorem tick_speed_invariant_witness :
    Reachable initGame ∧ noBottomExit initGame 0 ∧
    |ballSpeed (update 0 initGame).ball - BALL_SPEED| < 1e-9 := by
  have hnb : noBottomExit initGame 0 := by
    intro h hov
    rw [initGame_eq] at h
    simp at h
  exact ⟨Reachable.init, hnb, tick_speed_invariant initGame 0 Reachable.init hnb⟩

/-- C5: the side classification that takes effect in the block-collision
handler is exactly the spec's nearest-point rule; the time-of-impact
classification computed beforehand is overwritten unconditionally and the
effective side never depends on the ball's velocity. -/
theorem collision_side_refinement :
    (∀ (b : Ball) (blk : Block), collisionSide b blk = collisionSideSpec b blk) ∧
    (∀ (b : Ball) (blk : Block), collisionSide b blk = collisionSideNearest b blk) ∧
    (∀ (b : Ball) (blk : Block) (dx' dy' : ℝ),
      collisionSide { b with dx := dx', dy := dy' } blk = collisionSide b blk) := by
  refine ⟨fun b blk => rfl, fun b blk => rfl, fun b blk dx' dy' => rfl⟩

/-- C6 counterexample: a post-move ball at (345, 570) with radius 10 overlaps
the paddle's bounding rectangle at (400, 570) in the spec's axis-aligned
sense, yet the source's test (which uses the ball's center in x, not the
bounding extent) does not fire, and the tick leaves the downward velocity
unchanged instead of reflecting. -/
theorem paddle_overlap_claim_counterexample :
    ballPaddleBoxOverlap c6Start.ball.move c6Start.paddle ∧
    ¬ paddleHit c6Start.ball.move c6Start.paddle ∧
    (update 0 c6Start).ball.dy = 5 := by
  have hmx : c6Start.ball.move.x = 345 := by show (345:ℝ) + 0 = 345; norm_num
  have hmy : c6Start.ball.move.y = 570 := by show (565:ℝ) + 5 = 570; norm_num
  refine ⟨?_, ?_, ?_⟩
  · unfold ballPaddleBoxOverlap
    rw [hmx, hmy]
    show (345:ℝ) + 10 ≥ 400 - 100 / 2 ∧ (345:ℝ) - 10 ≤ 400 + 100 / 2 ∧
      (570:ℝ) + 10 ≥ 570 - 20 / 2 ∧ (570:ℝ) - 10 ≤ 570 + 20 / 2
    norm_num
  · intro hh
    have h3 := hh.2.2.1
    rw [hmx] at h3
    have hpx : c6Start.paddle.x = 400 := rfl
    have hpw : c6Start.paddle.width = 100 := rfl
    rw [hpx, hpw] at h3
    norm_num at h3
  · rw [c6_eval]
    rfl

/-- C6 amended: the reflection test fires exactly when the ball's vertical
extent overlaps the paddle's vertical span **and the ball's center x** (not
its bounding extent) lies within the paddle's horizontal span. -/
theorem paddle_test_amended (b : Ball) (p : Paddle) :
    paddleHit b p ↔
      (b.y + b.radius ≥ p.y - p.height / 2 ∧ b.y - b.radius ≤ p.y + p.height / 2) ∧
      (p.x - p.width / 2 ≤ b.x ∧ b.x ≤ p.x + p.width / 2) := by
  unfold paddleHit
  tauto

/-- C7: whenever the paddle test fires on a ball with positive speed, the
reflected velocity is `(s·sin(hitPos·π/3), −s·cos(hitPos·π/3))` with `s` the
pre-reflection speed magnitude; consequently the ball moves upward and the
deflection angle stays within ±60° of vertical. -/
theorem paddle_reflection_formula (b : Ball) (p : Paddle)
    (hhit : paddleHit b p) (hw : p.width = PADDLE_WIDTH) (hs : 0 < ballSpeed b) :
    (paddleReflect b p).dx =
      ballSpeed b * Real.sin ((b.x - p.x) / (p.width / 2) * (Real.pi / 3)) ∧
    (paddleReflect b p).dy =
      -(ballSpeed b * Real.cos ((b.x - p.x) / (p.width / 2) * (Real.pi / 3))) ∧
    (paddleReflect b p).dy < 0 ∧
    -(Real.pi / 3) ≤ (b.x - p.x) / (p.width / 2) * (Real.pi / 3) ∧
    (b.x - p.x) / (p.width / 2) * (Real.pi / 3) ≤ Real.pi / 3 := by
  have hsp : Real.sqrt (b.dx ^ 2 + (-|b.dy|) ^ 2) = ballSpeed b := by
    unfold ballSpeed
    rw [neg_sq, sq_abs]
  have h50 : p.width / 2 = 50 := by rw [hw]; norm_num [PADDLE_WIDTH]
  have hxlo := hhit.2.2.1
  have hxhi := hhit.2.2.2
  rw [hw] at hxlo hxhi
  norm_num [PADDLE_WIDTH] at hxlo hxhi
  have hpos1 : -1 ≤ (b.x - p.x) / (p.width / 2) := by
    rw [h50, le_div_iff (by norm_num : (0:ℝ) < 50)]
    linarith
  have hpos2 : (b.x - p.x) / (p.width / 2) ≤ 1 := by
    rw [h50, div_le_iff (by norm_num : (0:ℝ) < 50)]
    linarith
  have hpi := Real.pi_pos
  have hang1 : -(Real.pi / 3) ≤ (b.x - p.x) / (p.width / 2) * (Real.pi / 3) := by
    nlinarith
  have hang2 : (b.x - p.x) / (p.width / 2) * (Real.pi / 3) ≤ Real.pi / 3 := by
    nlinarith
  have hcos : 0 < Real.cos ((b.x - p.x) / (p.width / 2) * (Real.pi / 3)) := by
    apply Real.cos_pos_of_mem_Ioo
    constructor
    · nlinarith
    · nlinarith
  have hdx : (paddleReflect b p).dx =
      ballSpeed b * Real.sin ((b.x - p.x) / (p.width / 2) * (Real.pi / 3)) := by
    unfold paddleReflect
    dsimp only
    rw [hsp]
  have hdy : (paddleReflect b p).dy =
      -(ballSpeed b * Real.cos ((b.x - p.x) / (p.width / 2) * (Real.pi / 3))) := by
    unfold paddleReflect
    dsimp only
    rw [hsp]
  refine ⟨hdx, hdy, ?_, hang1, hang2⟩
  rw [hdy]
  have : 0 < ballSpeed b * Real.cos ((b.x - p.x) / (p.width / 2) * (Real.pi / 3)) :=
    mul_pos hs hcos
  linarith

theorem paddle_reflection_formula_witness :
    paddleHit { x := 400, y := 575, dx := 0, dy := 5, radius := 10 }
      { x := 400, y := 570, width := 100, height := 20 } ∧
    0 < ballSpeed { x := 400, y := 575, dx := 0, dy := 5, radius := 10 } ∧
    (paddleReflect { x := 400, y := 575, dx := 0, dy := 5, radius := 10 }
      { x := 400, y := 570, width := 100, height := 20 }).dy < 0 := by
  have hhit : paddleHit { x := 400, y := 575, dx := 0, dy := 5, radius := 10 }
      { x := (400:ℝ), y := 570, width := 100, height := 20 } := by
    unfold paddleHit
    norm_num
  have hs : 0 < ballSpeed { x := 400, y := 575, dx := 0, dy := 5, radius := 10 } := by
    unfold ballSpeed
    positivity
  exact ⟨hhit, hs,
    (paddle_reflection_formula _ _ hhit rfl hs).2.2.1⟩

/-- C8 counterexample: a reachable state — reached by pointing the paddle at
x = 750, clicking, and letting 12 ticks elapse — in which the ball's disk
protrudes past the right wall (`x + r > W`) even though no life was ever
lost (lives is still 3) and the game is not over.  The ball therefore does
not lie fully inside `[0, W] × (−∞, H]` between ticks outside the life-loss
frame. -/
theorem ball_containment_counterexample :
    Reachable ((update 0)^[12] (start (movePaddle initGame 750))) ∧
    ((update 0)^[12] (start (movePaddle initGame 750))).lives = 3 ∧
    ((update 0)^[12] (start (movePaddle initGame 750))).gameOver = false ∧
    WINDOW_WIDTH <
      ((update 0)^[12] (start (movePaddle initGame 750))).ball.x +
        ((update 0)^[12] (start (movePaddle initGame 750))).ball.radius := by
  refine ⟨c8_reachable 12, ?_, ?_, ?_⟩
  · rw [c8_final]; rfl
  · rw [c8_final]; rfl
  · rw [c8_final]
    have hd := diag_bounds
    have hx : ({ c8State 11 with
        ball := { (c8State 11).ball.move with dx := -diag } } : Game).ball.x =
        750 + ((11:ℕ) : ℝ) * diag + diag := rfl
    have hr : ({ c8State 11 with
        ball := { (c8State 11).ball.move with dx := -diag } } : Game).ball.radius = 10 := rfl
    rw [hx, hr]
    push_cast
    norm_num [WINDOW_WIDTH]
    nlinarith

/-- C8 amended: between ticks the ball's disk stays within the window
inflated by `r + SPEED` on the left, right and bottom (no clamping is
applied, so after a wall or bottom contact the disk can protrude by less
than `r + SPEED` until the reversed velocity, or the bottom-exit handler,
brings it back). -/
theorem ball_containment_amended (g : Game) (hg : Reachable g) :
    -(BALL_RADIUS + BALL_SPEED) ≤ g.ball.x - g.ball.radius ∧
    g.ball.x + g.ball.radius ≤ WINDOW_WIDTH + BALL_RADIUS + BALL_SPEED ∧
    g.ball.y + g.ball.radius ≤ WINDOW_HEIGHT + 2 * BALL_RADIUS + BALL_SPEED := by
  have hInv := reach_inv g hg
  have hsq := sq_sum_of_speed g.ball hInv.speed_eq
  have hdx1 : g.ball.dx ≤ 5 := by nlinarith
  have hdx2 : -5 ≤ g.ball.dx := by nlinarith
  have hr := hInv.radius_eq
  have hxlo : -5 ≤ g.ball.x := by
    rcases hInv.x_lo with h | ⟨h1, h2⟩
    · linarith
    · linarith
  have hxhi : g.ball.x ≤ 805 := by
    rcases hInv.x_hi with h | ⟨h1, h2⟩
    · norm_num [WINDOW_WIDTH] at h
      linarith
    · norm_num [WINDOW_WIDTH] at h1 h2
      linarith
  have hyhi : g.ball.y ≤ 615 := by
    have := hInv.y_hi
    norm_num [WINDOW_HEIGHT, BALL_RADIUS, BALL_SPEED] at this
    linarith
  rw [hr]
  norm_num [BALL_RADIUS, BALL_SPEED, WINDOW_WIDTH, WINDOW_HEIGHT]
  refine ⟨by linarith, by linarith, by linarith⟩

theorem ball_containment_amended_witness :
    Reachable initGame ∧
    (-(BALL_RADIUS + BALL_SPEED) ≤ initGame.ball.x - initGame.ball.radius ∧
     initGame.ball.x + initGame.ball.radius ≤ WINDOW_WIDTH + BALL_RADIUS + BALL_SPEED ∧
     initGame.ball.y + initGame.ball.radius ≤ WINDOW_HEIGHT + 2 * BALL_RADIUS + BALL_SPEED) :=
  ⟨Reachable.init, ball_containment_amended initGame Reachable.init⟩

/-- C9 counterexample: from the spec's S5 state (ball at (400, 590) moving
(0, +5), paddle at x = 100), a single tick does **not** lose a life: the
post-move ball sits at y = 595, and `y - r = 585` is not greater than
`H = 600`, so the game keeps running with 3 lives and the ball merely
advances. -/
theorem life_loss_scenario_counterexample :
    (update 0 c9Start).lives = 3 ∧ (update 0 c9Start).gameRunning = true ∧
    (update 0 c9Start).ball.y = 595 ∧ (update 0 c9Start).ball.dy = 5 := by
  rw [c9_eval]
  refine ⟨rfl, rfl, ?_, rfl⟩
  show (590:ℝ) + 5 = 595
  norm_num

/-- C9 amended: started instead from y = 610 (so that the post-move check
`y - r > H` fires), a single tick yields lives = 2, running = false, and
the ball repositioned to (paddle.x, H − 50) = (100, 550) with the reset
initial velocity `(SPEED·cos(π/4), −SPEED·sin(π/4))`. -/
theorem life_loss_scenario_amended :
    (update 0 c9StartA).lives = 2 ∧ (update 0 c9StartA).gameRunning = false ∧
    (update 0 c9StartA).ball.x = 100 ∧ (update 0 c9StartA).ball.y = WINDOW_HEIGHT - 50 ∧
    (update 0 c9StartA).ball.dx = BALL_SPEED * Real.cos (Real.pi / 4) ∧
    (update 0 c9StartA).ball.dy = -(BALL_SPEED * Real.sin (Real.pi / 4)) := by
  rw [c9A_eval]
  refine ⟨?_, rfl, rfl, rfl, rfl, rfl⟩
  show (3:ℤ) - 1 = 2
  norm_num

/-- C10: on any state with `over = true` (and actual paddle width 100),
`movePaddle` clamps the argument into `[PW/2, W − PW/2]` and moves only the
paddle's x: the ball and every other component of the state are unchanged.
The ball-follows-paddle coupling is disabled whenever `running = true` or
`over = true`. -/
theorem finished_pointer_move (g : Game) (x : ℝ) (hw : g.paddle.width = PADDLE_WIDTH) :
    (g.gameOver = true →
      (movePaddle g x).paddle.x =
        max (PADDLE_WIDTH / 2) (min x (WINDOW_WIDTH - PADDLE_WIDTH / 2)) ∧
      (movePaddle g x).ball = g.ball) ∧
    ((movePaddle g x).blocks = g.blocks ∧ (movePaddle g x).score = g.score ∧
     (movePaddle g x).lives = g.lives ∧ (movePaddle g x).gameRunning = g.gameRunning ∧
     (movePaddle g x).gameOver = g.gameOver ∧ (movePaddle g x).paddle.y = g.paddle.y ∧
     (movePaddle g x).paddle.width = g.paddle.width ∧
     (movePaddle g x).paddle.height = g.paddle.height) ∧
    (g.gameRunning = true ∨ g.gameOver = true → (movePaddle g x).ball = g.ball) := by
  have hframe : (g.paddle.move x).width = g.paddle.width ∧
      (g.paddle.move x).height = g.paddle.height ∧ (g.paddle.move x).y = g.paddle.y := by
    unfold Paddle.move
    split_ifs <;> exact ⟨rfl, rfl, rfl⟩
  have hclamp : (g.paddle.move x).x =
      max (PADDLE_WIDTH / 2) (min x (WINDOW_WIDTH - PADDLE_WIDTH / 2)) := by
    unfold Paddle.move
    rw [hw]
    norm_num [PADDLE_WIDTH, WINDOW_WIDTH]
    split_ifs with h1 h2
    · rw [min_eq_left (by linarith), max_eq_left (by linarith)]
    · rw [min_eq_right (by linarith), max_eq_right (by norm_num)]
    · rw [min_eq_left (by linarith), max_eq_right (by linarith)]
  have hball : ∀ h : ¬(g.gameRunning = false ∧ g.gameOver = false),
      (movePaddle g x).ball = g.ball := by
    intro h
    unfold movePaddle
    dsimp only
    rw [if_neg h]
  refine ⟨?_, ?_, ?_⟩
  · intro hov
    refine ⟨hclamp, hball ?_⟩
    rintro ⟨-, h2⟩
    rw [hov] at h2
    exact Bool.noConfusion h2
  · exact ⟨rfl, rfl, rfl, rfl, rfl, hframe.2.2, hframe.1, hframe.2.1⟩
  · rintro (h | h)
    · refine hball ?_
      rintro ⟨h1, -⟩
      rw [h] at h1
      exact Bool.noConfusion h1
    · refine hball ?_
      rintro ⟨-, h2⟩
      rw [h] at h2
      exact Bool.noConfusion h2

theorem finished_pointer_move_witness :
    c10Start.gameOver = true ∧ c10Start.paddle.width = PADDLE_WIDTH ∧
    (movePaddle c10Start 900).paddle.x = 750 ∧
    (movePaddle c10Start 900).ball = c10Start.ball ∧
    (movePaddle c10Start 900).score = c10Start.score := by
  obtain ⟨hov, hframe, -⟩ := finished_pointer_move c10Start 900 rfl
  obtain ⟨hx, hb⟩ := hov rfl
  refine ⟨rfl, rfl, ?_, hb, hframe.2.1⟩
  rw [hx]
  norm_num [PADDLE_WIDTH, WINDOW_WIDTH]

end

end BlockBreaker
